import Mathlib

/-!
Shallow embedding of the ip-whitelist-by-country core
(`internal/ipdata/processor.go`): the RIPE feed line parser, the
country → CIDR-list cache, and the refresh-on-demand logic of
`downloadAndProcessData` / `GetIPListForCountry`.

Modelling conventions:
* the HTTP response body is modelled at line granularity (the list of lines
  the `bufio.Scanner` would yield), together with an optional read error
  reported by `scanner.Err()` after those lines;
* wall-clock time is an integer; one instant `now` stands for the whole
  (sequential) execution of a call;
* Go's `map[string][]T` built only by `append` is modelled as an association
  list keyed by first insertion, which preserves exactly the per-country
  order the Go code produces;
* Go errors are strings mirroring the `fmt.Errorf` formats of the source.
-/

/-- Model of `int(math.Log2(float64 n))` for `n ≥ 1`, fuel-based so it is
kernel-computable. Go's `math.Log2` is exact on powers of two and its
truncation agrees with `⌊log2 n⌋` throughout the feed's count range
(`n < 2^32`), which `floorLog2Aux` computes. -/
def floorLog2Aux : Nat → Nat → Nat
  | 0, _ => 0
  | fuel + 1, n => if 2 ≤ n then floorLog2Aux fuel (n / 2) + 1 else 0

def floorLog2 (n : Nat) : Nat := floorLog2Aux n n

/-- Model of `32 - int(math.Log2(float64(count)))`'s log term as an integer.
For `count ≤ 0` the Go code converts `-Inf`/`NaN` to `int`, which is
implementation-specific; `-(2^63)` is the amd64 result. No theorem below
depends on the value of this branch. -/
def intOfLog2 (count : Int) : Int :=
  if 0 < count then Int.ofNat (floorLog2 count.toNat) else -(2 ^ 63)

/-- Model of Go `strconv.Atoi`: optional sign, at least one digit, all
digits, value within the 64-bit integer range (out of range is `ErrRange`,
hence a parse failure for the caller). -/
def atoi (s : String) : Option Int :=
  let cs := s.data
  let signDigits : Bool × List Char :=
    match cs with
    | '+' :: rest => (false, rest)
    | '-' :: rest => (true, rest)
    | _ => (false, cs)
  let neg := signDigits.1
  let digits := signDigits.2
  if digits.isEmpty then none
  else if digits.all Char.isDigit then
    let n : Nat := digits.foldl (fun acc c => acc * 10 + (c.toNat - 48)) 0
    let v : Int := if neg then -(n : Int) else (n : Int)
    if -(2 ^ 63) ≤ v ∧ v ≤ 2 ^ 63 - 1 then some v else none
  else none

/-- Model of `strings.Split(s, "|")` on the character list: split at every
`'|'`, keeping empty fields, always yielding at least one field. -/
def splitPipeAux : List Char → List (List Char)
  | [] => [[]]
  | c :: rest =>
      match splitPipeAux rest with
      | [] => [[c]]
      | p :: ps => if c == '|' then [] :: p :: ps else (c :: p) :: ps

def splitPipe (s : String) : List String :=
  (splitPipeAux s.data).map (fun cs => String.mk cs)

/-- ASCII upper-casing of one character; agrees with Go's
`strings.ToUpper` on the feed's ASCII country codes. -/
def upChar (c : Char) : Char :=
  if 'a' ≤ c ∧ c ≤ 'z' then Char.ofNat (c.toNat - 32) else c

def toUpperAscii (s : String) : String :=
  String.mk (s.data.map upChar)

/-- Model of `strings.HasPrefix(line, "#")`. -/
def hashStart (s : String) : Bool :=
  s.data.headD 'x' == '#'

/-- Model of `strings.TrimSpace(line) == ""`: every character is
whitespace (vacuously true for the empty line), matching Go on the feed's
ASCII data. -/
def blankLine (s : String) : Bool :=
  s.data.all Char.isWhitespace

/-- `IPData` struct of `processor.go`. -/
structure IPData where
  Country : String
  IPStart : String
  Count : Int
  CIDRMask : Int
deriving Repr, DecidableEq

/-- One iteration of the scan loop of `downloadAndProcessData`
(lines 150–184 of `processor.go`): comment/blank skip, split on `"|"`,
`< 6` fields skip, `ripencc`/`ipv4` filter, `Atoi` of the count field
(parse failure skips the line), mask `32 - int(math.Log2(count))`. -/
def parseLine (line : String) : Option IPData :=
  if hashStart line || blankLine line then none
  else if (splitPipe line).length < 6 then none
  else if (splitPipe line).getD 0 "" == "ripencc"
       && (splitPipe line).getD 2 "" == "ipv4" then
    match atoi ((splitPipe line).getD 4 "") with
    | none => none
    | some count =>
        some { Country := toUpperAscii ((splitPipe line).getD 1 "")
               IPStart := (splitPipe line).getD 3 ""
               Count := count
               CIDRMask := 32 - intOfLog2 count }
  else none

/-- Association-list lookup, the model of `m[k]` with its `ok` flag. -/
def findD {α : Type} : List (String × α) → String → Option α
  | [], _ => none
  | (k0, v) :: rest, k => if k0 == k then some v else findD rest k

/-- Model of `m[k] = append(m[k], v)` on a map built only by appends:
extend the entry for `k` in place, or add a new last entry. -/
def appendEntry {α : Type} (m : List (String × List α)) (k : String) (v : α) :
    List (String × List α) :=
  match m with
  | [] => [(k, [v])]
  | (k0, vs) :: rest =>
      if k0 == k then (k0, vs ++ [v]) :: rest
      else (k0, vs) :: appendEntry rest k v

/-- The scan loop folded over the body's lines, building `ipDataByCountry`. -/
def parseFeedAux (m : List (String × List IPData)) :
    List String → List (String × List IPData)
  | [] => m
  | line :: rest =>
      match parseLine line with
      | some r => parseFeedAux (appendEntry m r.Country r) rest
      | none => parseFeedAux m rest

/-- `ipDataByCountry` produced from a whole body. -/
def parseFeed (lines : List String) : List (String × List IPData) :=
  parseFeedAux [] lines

/-- `fmt.Sprintf("%s/%d", ipData.IPStart, ipData.CIDRMask)`. -/
def cidrOf (r : IPData) : String :=
  r.IPStart ++ "/" ++ toString r.CIDRMask

/-- The `newCache` construction (lines 191–199): map every record list to
its CIDR strings, preserving order. -/
def buildCache (m : List (String × List IPData)) : List (String × List String) :=
  m.map (fun p => (p.1, p.2.map cidrOf))

/-- The processor's shared mutable state: `cache`, `cacheTime`, `cacheTTL`. -/
structure ProcState where
  cache : List (String × List String)
  cacheTime : Int
  cacheTTL : Int
deriving Repr, DecidableEq

/-- Outcome of one attempted fetch, as seen through the injected
`HTTPClient`: request construction failure, `Do` error, or a response with
a status, the body lines the scanner yields, and an optional read error
reported by `scanner.Err()` after them. -/
inductive FetchOutcome where
  | reqErr (msg : String)
  | doErr (msg : String)
  | resp (status : Int) (bodyLines : List String) (readErr : Option String)
deriving Repr, DecidableEq

/-- The fetch outcomes on which the Go code takes an error return: request
construction failure, transport error, non-200 status, or a read error
reported by the scanner. -/
def FetchOutcome.isFailure : FetchOutcome → Bool
  | .reqErr _ => true
  | .doErr _ => true
  | .resp status _ readErr => status != 200 || readErr.isSome

/-- Result of `downloadAndProcessData`: the state after the call, the Go
error (`.ok` for `nil`), and how many times `httpClient.Do` ran. -/
structure RefreshResult where
  state : ProcState
  result : Except String Unit
  calls : Nat

/-- Lines 122–206 of `downloadAndProcessData`, the part after the post-lock
freshness re-check: request construction, `Do`, exact-200 status check,
scan/parse with read-error check, then wholesale cache replacement and
timestamp update. -/
def fetchAndStore (p : ProcState) (now : Int) : FetchOutcome → RefreshResult
  | .reqErr msg => ⟨p, .error ("failed to create request: " ++ msg), 0⟩
  | .doErr msg => ⟨p, .error ("failed to download data: " ++ msg), 1⟩
  | .resp status lines readErr =>
      if status ≠ 200 then
        ⟨p, .error ("received non-200 response: " ++ toString status), 1⟩
      else
        match readErr with
        | some msg => ⟨p, .error ("error reading response: " ++ msg), 1⟩
        | none =>
            ⟨{ cache := buildCache (parseFeed lines)
               cacheTime := now
               cacheTTL := p.cacheTTL },
             .ok (), 1⟩

/-- `downloadAndProcessData` (lines 114–207): the freshness re-check after
taking the write lock, then the fetch/parse/store pipeline. -/
def downloadAndProcessData (p : ProcState) (now : Int) (o : FetchOutcome) :
    RefreshResult :=
  if now - p.cacheTime < p.cacheTTL then ⟨p, .ok (), 0⟩
  else fetchAndStore p now o

/-- Result of `GetIPListForCountry`: the returned value (list or error),
the state after the call, and the number of `httpClient.Do` invocations. -/
structure LookupResult where
  value : Except String (List String)
  state : ProcState
  calls : Nat

/-- `GetIPListForCountry` (lines 84–111): upper-case the code, fresh-cache
fast path, otherwise refresh via `downloadAndProcessData` (wrapping its
error), then re-check the cache, defaulting to the empty list. -/
def GetIPListForCountry (p : ProcState) (now : Int) (o : FetchOutcome)
    (countryCode : String) : LookupResult :=
  let code := toUpperAscii countryCode
  let hit := if now - p.cacheTime < p.cacheTTL then findD p.cache code else none
  match hit with
  | some l => ⟨.ok l, p, 0⟩
  | none =>
      let r := downloadAndProcessData p now o
      match r.result with
      | .error e =>
          ⟨.error ("failed to download and process data: " ++ e), r.state, r.calls⟩
      | .ok _ =>
          match findD r.state.cache code with
          | some l => ⟨.ok l, r.state, r.calls⟩
          | none => ⟨.ok [], r.state, r.calls⟩

/-- The accepted lines of the feed that land in country `c`, in feed
encounter order: the flat order of accepted records, filtered by country. -/
def recordsFor (lines : List String) (c : String) : List IPData :=
  (lines.filterMap parseLine).filter (fun r => r.Country == c)

/-! ### Parser-level lemmas -/

/-- Inversion: a line that produces a record passed every filter, its count
field parsed, and the record is exactly the one the loop body builds. -/
lemma parseLine_some_inv {line : String} {r : IPData}
    (h : parseLine line = some r) :
    hashStart line = false ∧ blankLine line = false ∧
    ¬ (splitPipe line).length < 6 ∧
    (splitPipe line).getD 0 "" = "ripencc" ∧
    (splitPipe line).getD 2 "" = "ipv4" ∧
    atoi ((splitPipe line).getD 4 "") = some r.Count ∧
    r = { Country := toUpperAscii ((splitPipe line).getD 1 "")
          IPStart := (splitPipe line).getD 3 ""
          Count := r.Count
          CIDRMask := 32 - intOfLog2 r.Count } := by
  unfold parseLine at h
  split at h
  · exact absurd h (by simp)
  · next hskip =>
    rw [Bool.or_eq_true] at hskip
    push_neg at hskip
    split at h
    · exact absurd h (by simp)
    · next hlen =>
      split at h
      · next hfilter =>
        rw [Bool.and_eq_true, beq_iff_eq, beq_iff_eq] at hfilter
        split at h
        · exact absurd h (by simp)
        · next count hatoi =>
          rw [Option.some_inj] at h
          subst h
          refine ⟨?_, ?_, hlen, hfilter.1, hfilter.2, hatoi, rfl⟩
          · simpa using hskip.1
          · simpa using hskip.2
      · exact absurd h (by simp)

lemma floorLog2Aux_pow (fuel : Nat) :
    ∀ k : Nat, k ≤ fuel → floorLog2Aux fuel (2 ^ k) = k := by
  induction fuel with
  | zero =>
      intro k hk
      interval_cases k
      rfl
  | succ m ih =>
      intro k hk
      match k with
      | 0 => simp [floorLog2Aux]
      | k + 1 =>
          have h2 : 2 ≤ 2 ^ (k + 1) := by
            have h3 : 2 ^ 1 ≤ 2 ^ (k + 1) :=
              Nat.pow_le_pow_right (by norm_num) (by omega)
            simpa using h3
          have hdiv : 2 ^ (k + 1) / 2 = 2 ^ k := by
            rw [pow_succ]; omega
          simp only [floorLog2Aux, if_pos h2, hdiv,
            ih k (Nat.lt_succ_iff.mp hk)]

lemma floorLog2_pow (k : Nat) : floorLog2 (2 ^ k) = k :=
  floorLog2Aux_pow (2 ^ k) k (Nat.le_of_lt (Nat.lt_two_pow k))

lemma intOfLog2_two_pow (k : Nat) : intOfLog2 ((2 : Int) ^ k) = k := by
  unfold intOfLog2
  rw [if_pos (by positivity)]
  have h : ((2 : Int) ^ k).toNat = 2 ^ k := by
    rw [show ((2 : Int) ^ k) = ((2 ^ k : Nat) : Int) by push_cast; ring,
      Int.toNat_natCast]
  rw [h, floorLog2_pow]
  rfl

/-! ### Association-list (Go map) lemmas -/

lemma findD_appendEntry {α : Type} (m : List (String × List α)) (k c : String)
    (v : α) :
    findD (appendEntry m k v) c =
      if k == c then some (((findD m c).getD []) ++ [v]) else findD m c := by
  induction m with
  | nil => cases hkc : (k == c) <;> simp [appendEntry, findD, hkc]
  | cons hd rest ih =>
      obtain ⟨k0, vs⟩ := hd
      cases hk0k : (k0 == k) with
      | true =>
          have hk0 : k0 = k := by simpa [beq_iff_eq] using hk0k
          subst hk0
          cases hkc : (k0 == c) <;> simp [appendEntry, findD, hk0k, hkc]
      | false =>
          cases hk0c : (k0 == c) with
          | true =>
              have hkc : (k == c) = false := by
                cases h : (k == c) with
                | false => rfl
                | true =>
                    have hkc' : k = c := by simpa [beq_iff_eq] using h
                    have h1 : k0 = c := by simpa [beq_iff_eq] using hk0c
                    have h2 : ¬ k0 = k := by simpa [beq_iff_eq] using hk0k
                    exact absurd (h1.trans hkc'.symm) h2
              simp [appendEntry, findD, hk0k, hk0c, hkc]
          | false => simp [appendEntry, findD, hk0k, hk0c, ih]

lemma findD_parseFeedAux (lines : List String) :
    ∀ (m : List (String × List IPData)) (c : String),
      findD (parseFeedAux m lines) c =
        if (recordsFor lines c).isEmpty then findD m c
        else some (((findD m c).getD []) ++ recordsFor lines c) := by
  induction lines with
  | nil => intro m c; simp [parseFeedAux, recordsFor]
  | cons line rest ih =>
      intro m c
      cases hpl : parseLine line with
      | none =>
          have hrec : recordsFor (line :: rest) c = recordsFor rest c := by
            simp [recordsFor, List.filterMap_cons, hpl]
          rw [show parseFeedAux m (line :: rest) = parseFeedAux m rest by
            simp [parseFeedAux, hpl]]
          rw [hrec]
          exact ih m c
      | some r =>
          rw [show parseFeedAux m (line :: rest)
                = parseFeedAux (appendEntry m r.Country r) rest by
            simp [parseFeedAux, hpl]]
          rw [ih (appendEntry m r.Country r) c, findD_appendEntry]
          cases hrc : (r.Country == c) with
          | false =>
              have hrec : recordsFor (line :: rest) c = recordsFor rest c := by
                simp [recordsFor, List.filterMap_cons, hpl, List.filter_cons, hrc]
              simp [hrc, hrec]
          | true =>
              have hrec : recordsFor (line :: rest) c = r :: recordsFor rest c := by
                simp [recordsFor, List.filterMap_cons, hpl, List.filter_cons, hrc]
              by_cases hre : (recordsFor rest c).isEmpty = true
              · have h0 : recordsFor rest c = [] := by
                  simpa [List.isEmpty_iff] using hre
                simp [hrc, hrec, h0]
              · simp [hrc, hrec, hre]

lemma findD_buildCache (m : List (String × List IPData)) (c : String) :
    findD (buildCache m) c = (findD m c).map (fun l => l.map cidrOf) := by
  induction m with
  | nil => simp [buildCache, findD]
  | cons hd rest ih =>
      obtain ⟨k0, vs⟩ := hd
      rw [show buildCache ((k0, vs) :: rest)
            = (k0, vs.map cidrOf) :: buildCache rest from rfl]
      cases hk0c : (k0 == c) <;> simp [findD, hk0c, ih]

/-- The cache produced from a feed body, characterized per country: the
country's records in feed order, rendered as CIDR strings, or absent when
the feed has none. -/
lemma findD_cache_of_feed (lines : List String) (c : String) :
    findD (buildCache (parseFeed lines)) c =
      if (recordsFor lines c).isEmpty then none
      else some ((recordsFor lines c).map cidrOf) := by
  rw [findD_buildCache, parseFeed, findD_parseFeedAux]
  by_cases hre : (recordsFor lines c).isEmpty = true
  · simp [hre, findD]
  · simp [hre, findD]

/-! ### Refresh and lookup path lemmas -/

/-- Post-lock freshness re-check: a fresh refresh returns `nil`
immediately, without touching the transport or the state. -/
lemma refresh_fresh (p : ProcState) (now : Int) (o : FetchOutcome)
    (hfresh : now - p.cacheTime < p.cacheTTL) :
    downloadAndProcessData p now o = ⟨p, .ok (), 0⟩ := by
  unfold downloadAndProcessData
  rw [if_pos hfresh]

/-- A stale refresh seeing a clean 200 response replaces the cache with the
mapping built from the body alone and stamps the current time. -/
lemma refresh_success_stale (p : ProcState) (now : Int) (lines : List String)
    (hstale : ¬ now - p.cacheTime < p.cacheTTL) :
    downloadAndProcessData p now (.resp 200 lines none)
      = ⟨⟨buildCache (parseFeed lines), now, p.cacheTTL⟩, .ok (), 1⟩ := by
  unfold downloadAndProcessData
  rw [if_neg hstale]
  simp [fetchAndStore]

/-- Every failing fetch outcome yields an error return from a stale
refresh, with the state untouched. -/
lemma refresh_fail (p : ProcState) (now : Int) (o : FetchOutcome)
    (hstale : ¬ now - p.cacheTime < p.cacheTTL)
    (hfail : o.isFailure = true) :
    (downloadAndProcessData p now o).state = p ∧
    ∃ e, (downloadAndProcessData p now o).result = Except.error e := by
  unfold downloadAndProcessData
  rw [if_neg hstale]
  cases o with
  | reqErr msg => exact ⟨rfl, _, rfl⟩
  | doErr msg => exact ⟨rfl, _, rfl⟩
  | resp status lines readErr =>
      simp only [FetchOutcome.isFailure, Bool.or_eq_true] at hfail
      by_cases hs : status = 200
      · subst hs
        have hre : readErr.isSome = true := by
          rcases hfail with h | h
          · simp at h
          · exact h
        obtain ⟨msg, hmsg⟩ := Option.isSome_iff_exists.mp hre
        subst hmsg
        simp [fetchAndStore]
      · simp [fetchAndStore, hs]

/-- On the stale path, the lookup is exactly: refresh, propagate a wrapped
error, or answer from the new cache with `[]` as default. -/
lemma lookup_stale_eq (p : ProcState) (now : Int) (o : FetchOutcome)
    (code : String) (hstale : ¬ now - p.cacheTime < p.cacheTTL) :
    GetIPListForCountry p now o code =
      match (downloadAndProcessData p now o).result with
      | .error e =>
          ⟨.error ("failed to download and process data: " ++ e),
           (downloadAndProcessData p now o).state,
           (downloadAndProcessData p now o).calls⟩
      | .ok _ =>
          match findD (downloadAndProcessData p now o).state.cache
              (toUpperAscii code) with
          | some l => ⟨.ok l, (downloadAndProcessData p now o).state,
                       (downloadAndProcessData p now o).calls⟩
          | none => ⟨.ok [], (downloadAndProcessData p now o).state,
                     (downloadAndProcessData p now o).calls⟩ := by
  simp only [GetIPListForCountry, if_neg hstale]



/-- On a fresh cache, a lookup for a cached country answers from the cache
with no state change and no transport call. -/
lemma lookup_fresh_hit (p : ProcState) (now : Int) (o : FetchOutcome)
    (code : String) (l : List String)
    (hfresh : now - p.cacheTime < p.cacheTTL)
    (hl : findD p.cache (toUpperAscii code) = some l) :
    GetIPListForCountry p now o code = ⟨.ok l, p, 0⟩ := by
  simp only [GetIPListForCountry, if_pos hfresh, hl]

/-- On a fresh cache, a lookup for an absent country falls through to the
refresh, which returns success immediately on its own freshness re-check,
and the lookup answers the empty list. -/
lemma lookup_fresh_miss (p : ProcState) (now : Int) (o : FetchOutcome)
    (code : String)
    (hfresh : now - p.cacheTime < p.cacheTTL)
    (hl : findD p.cache (toUpperAscii code) = none) :
    GetIPListForCountry p now o code = ⟨.ok [], p, 0⟩ := by
  simp only [GetIPListForCountry, if_pos hfresh, hl,
    refresh_fresh p now o hfresh]

/-! ### Claim theorems -/

/-- Claim C1: starting from an empty stale cache, a 200 response whose body
is the single line `ripencc|US|ipv4|192.168.0.0|256|20220101|allocated`
makes `lookup("us")` return exactly `["192.168.0.0/24"]` with no error,
one transport call, and the cache updated accordingly. -/
theorem lookup_us_scenario :
    GetIPListForCountry ⟨[], 0, 3600⟩ 7200
        (.resp 200 ["ripencc|US|ipv4|192.168.0.0|256|20220101|allocated"] none)
        "us"
      = ⟨.ok ["192.168.0.0/24"],
         ⟨[("US", ["192.168.0.0/24"])], 7200, 3600⟩, 1⟩ := by
  rfl

/-- Claim C2: every failing fetch outcome makes the stale refresh return a
non-nil error, the triggering lookup propagate that error wrapped in
"failed to download and process data", and both the cache mapping and its
timestamp stay exactly as they were. -/
theorem refresh_failure_atomic (p : ProcState) (now : Int) (o : FetchOutcome)
    (code : String) (hstale : ¬ now - p.cacheTime < p.cacheTTL)
    (hfail : o.isFailure = true) :
    (downloadAndProcessData p now o).state = p ∧
    ∃ e, (downloadAndProcessData p now o).result = .error e ∧
      GetIPListForCountry p now o code
        = ⟨.error ("failed to download and process data: " ++ e), p,
           (downloadAndProcessData p now o).calls⟩ := by
  obtain ⟨hstate, e, he⟩ := refresh_fail p now o hstale hfail
  refine ⟨hstate, e, he, ?_⟩
  rw [lookup_stale_eq p now o code hstale, he, hstate]

/-- Claim C3: while the cache is fresh, a lookup makes zero transport
calls and leaves the state unchanged, a cached country gets its stored
list, and a refresh in this state returns success immediately from the
post-lock re-check without fetching. -/
theorem fresh_lookup_no_network (p : ProcState) (now : Int) (o : FetchOutcome)
    (code : String) (hfresh : now - p.cacheTime < p.cacheTTL) :
    (GetIPListForCountry p now o code).calls = 0 ∧
    (GetIPListForCountry p now o code).state = p ∧
    (∀ l, findD p.cache (toUpperAscii code) = some l →
      (GetIPListForCountry p now o code).value = .ok l) ∧
    downloadAndProcessData p now o = ⟨p, .ok (), 0⟩ := by
  cases hf : findD p.cache (toUpperAscii code) with
  | some l =>
      rw [lookup_fresh_hit p now o code l hfresh hf]
      exact ⟨rfl, rfl,
        fun l' hl' => by
          injection hl' with h
          rw [h],
        refresh_fresh p now o hfresh⟩
  | none =>
      rw [lookup_fresh_miss p now o code hfresh hf]
      exact ⟨rfl, rfl,
        fun l' hl' => Option.noConfusion hl',
        refresh_fresh p now o hfresh⟩

/-- Claim C4 counterexample: the count field `"0"` parses as the
non-positive integer 0, yet the line is not skipped: a record is
produced. -/
theorem count_zero_produces_record :
    atoi "0" = some 0 ∧ ¬ (0 : Int) > 0 ∧
    (parseLine "ripencc|US|ipv4|192.168.0.0|0|20220101|allocated").isSome
      = true := by
  refine ⟨by decide, by decide, by decide⟩

/-- Claim C4 (amended): only a count field on which `strconv.Atoi` errors
makes the line be skipped, and the skip is non-fatal: parsing continues
with the remaining lines unchanged. -/
theorem count_unparsable_nonfatal (line : String)
    (m : List (String × List IPData)) (rest : List String)
    (h : atoi ((splitPipe line).getD 4 "") = none) :
    parseLine line = none ∧
    parseFeedAux m (line :: rest) = parseFeedAux m rest := by
  have hnone : parseLine line = none := by
    cases hp : parseLine line with
    | none => rfl
    | some r =>
        obtain ⟨-, -, -, -, -, hat, -⟩ := parseLine_some_inv hp
        rw [h] at hat
        exact Option.noConfusion hat
  exact ⟨hnone, by simp [parseFeedAux, hnone]⟩

/-- Claim C5: for an accepted record whose count is `2^k` with `k ≤ 32`,
the derived mask is exactly `32 - k`. -/
theorem mask_exact_on_power_of_two (k : Nat) (_hk : k ≤ 32) (line : String)
    (r : IPData) (h : parseLine line = some r)
    (hc : r.Count = (2 : Int) ^ k) :
    r.CIDRMask = 32 - (k : Int) := by
  obtain ⟨-, -, -, -, -, -, hr⟩ := parseLine_some_inv h
  have hmask : r.CIDRMask = 32 - intOfLog2 r.Count := by
    conv_lhs => rw [hr]
  rw [hmask, hc, intOfLog2_two_pow]

/-- Claim C6: a line starting with `#`, whitespace-only, with fewer than 6
fields, or whose first field is not `ripencc` or third field is not `ipv4`
contributes no record, whatever its other fields hold. -/
theorem registry_family_filter (line : String)
    (h : hashStart line = true ∨ blankLine line = true ∨
         (splitPipe line).length < 6 ∨
         (splitPipe line).getD 0 "" ≠ "ripencc" ∨
         (splitPipe line).getD 2 "" ≠ "ipv4") :
    parseLine line = none := by
  cases hp : parseLine line with
  | none => rfl
  | some r =>
      obtain ⟨h1, h2, h3, h4, h5, -, -⟩ := parseLine_some_inv hp
      rcases h with h | h | h | h | h
      · rw [h1] at h; exact Bool.noConfusion h
      · rw [h2] at h; exact Bool.noConfusion h
      · exact absurd h h3
      · exact absurd h4 h
      · exact absurd h5 h

/-- Claim C7: a country with no entry in the governing snapshot yields the
empty list and no error — on a fresh cache, and on a stale cache whose
triggered refresh succeeds but whose feed has no line for the country. -/
theorem unknown_country_not_error (p : ProcState) (now : Int)
    (o : FetchOutcome) (lines : List String) (code : String) :
    ((now - p.cacheTime < p.cacheTTL) →
      findD p.cache (toUpperAscii code) = none →
      GetIPListForCountry p now o code = ⟨.ok [], p, 0⟩) ∧
    (¬ (now - p.cacheTime < p.cacheTTL) →
      recordsFor lines (toUpperAscii code) = [] →
      GetIPListForCountry p now (.resp 200 lines none) code
        = ⟨.ok [], ⟨buildCache (parseFeed lines), now, p.cacheTTL⟩, 1⟩) := by
  constructor
  · intro hfresh habs
    exact lookup_fresh_miss p now o code hfresh habs
  · intro hstale habs
    have hnone : findD (buildCache (parseFeed lines)) (toUpperAscii code)
        = none := by
      rw [findD_cache_of_feed, habs]
      rfl
    rw [lookup_stale_eq p now (.resp 200 lines none) code hstale,
      refresh_success_stale p now lines hstale]
    simp only [hnone]

/-- Claim C8: a successful stale refresh replaces the whole state with the
mapping built from the fetched body alone — prior contents are irrelevant
and countries absent from the new feed disappear — and each country maps
to one CIDR string per accepted line, in feed encounter order. -/
theorem refresh_replaces_cache_wholesale (p : ProcState) (now : Int)
    (lines : List String) (hstale : ¬ now - p.cacheTime < p.cacheTTL) :
    downloadAndProcessData p now (.resp 200 lines none)
      = ⟨⟨buildCache (parseFeed lines), now, p.cacheTTL⟩, .ok (), 1⟩ ∧
    ∀ c, findD (buildCache (parseFeed lines)) c =
      if (recordsFor lines c).isEmpty then none
      else some ((recordsFor lines c).map cidrOf) :=
  ⟨refresh_success_stale p now lines hstale,
   fun c => findD_cache_of_feed lines c⟩

/-- Claim C9: with a positive TTL, a stale refresh that succeeds stamps the
current time, strictly above the timestamp it replaces, while a failed
refresh leaves the timestamp unchanged. -/
theorem cacheTime_strictly_increases (p : ProcState) (now : Int)
    (o : FetchOutcome) (httl : 0 < p.cacheTTL)
    (hstale : ¬ now - p.cacheTime < p.cacheTTL) :
    ((downloadAndProcessData p now o).result = .ok () →
      (downloadAndProcessData p now o).state.cacheTime = now ∧
      p.cacheTime < now) ∧
    (∀ e, (downloadAndProcessData p now o).result = .error e →
      (downloadAndProcessData p now o).state.cacheTime = p.cacheTime) := by
  have hlt : p.cacheTime < now := by omega
  constructor
  · intro hok
    refine ⟨?_, hlt⟩
    unfold downloadAndProcessData at hok ⊢
    rw [if_neg hstale] at hok ⊢
    cases o with
    | reqErr msg => simp [fetchAndStore] at hok
    | doErr msg => simp [fetchAndStore] at hok
    | resp status lines readErr =>
        by_cases hs : status = 200
        · subst hs
          cases readErr with
          | some msg => simp [fetchAndStore] at hok
          | none => simp [fetchAndStore]
        · simp [fetchAndStore, hs] at hok
  · intro e he
    unfold downloadAndProcessData at he ⊢
    rw [if_neg hstale] at he ⊢
    cases o with
    | reqErr msg => rfl
    | doErr msg => rfl
    | resp status lines readErr =>
        by_cases hs : status = 200
        · subst hs
          cases readErr with
          | some msg => simp [fetchAndStore]
          | none => simp [fetchAndStore] at he
        · simp [fetchAndStore, hs]

/-- Claim C10: the status check is against the exact value 200: any other
status, success class included, fails the stale refresh with an error
naming the status, with the same result for every body and read outcome —
the body is never parsed. -/
theorem non_200_exact_check (p : ProcState) (now : Int) (status : Int)
    (lines : List String) (readErr : Option String)
    (hstale : ¬ now - p.cacheTime < p.cacheTTL) (hne : status ≠ 200) :
    downloadAndProcessData p now (.resp status lines readErr)
      = ⟨p, .error ("received non-200 response: " ++ toString status), 1⟩ := by
  unfold downloadAndProcessData
  rw [if_neg hstale]
  simp [fetchAndStore, hne]

/-! ### Concrete witnesses -/

/-- Witness for `refresh_failure_atomic`: a transport error on a stale
cache with prior contents. -/
theorem refresh_failure_atomic_witness :
    (¬ ((7200 : Int) - 0 < 3600)) ∧
    (FetchOutcome.doErr "boom").isFailure = true ∧
    (downloadAndProcessData ⟨[("US", ["9.9.9.0/24"])], 0, 3600⟩ 7200
        (.doErr "boom")).state = ⟨[("US", ["9.9.9.0/24"])], 0, 3600⟩ ∧
    GetIPListForCountry ⟨[("US", ["9.9.9.0/24"])], 0, 3600⟩ 7200
        (.doErr "boom") "us"
      = ⟨.error "failed to download and process data: failed to download data: boom",
         ⟨[("US", ["9.9.9.0/24"])], 0, 3600⟩, 1⟩ := by
  obtain ⟨hstate, e, he, hlook⟩ :=
    refresh_failure_atomic ⟨[("US", ["9.9.9.0/24"])], 0, 3600⟩ 7200
      (.doErr "boom") "us" (by decide) (by decide)
  have hres : (downloadAndProcessData ⟨[("US", ["9.9.9.0/24"])], 0, 3600⟩ 7200
      (.doErr "boom")).result = .error "failed to download data: boom" := by rfl
  rw [hres] at he
  injection he with he'
  subst he'
  exact ⟨by decide, by decide, hstate, hlook⟩

/-- Witness for `fresh_lookup_no_network`: fresh cache, cached country. -/
theorem fresh_lookup_no_network_witness :
    ((100 : Int) - 0 < 3600) ∧
    (GetIPListForCountry ⟨[("US", ["1.2.3.0/24"])], 0, 3600⟩ 100
        (.doErr "x") "us").calls = 0 ∧
    (GetIPListForCountry ⟨[("US", ["1.2.3.0/24"])], 0, 3600⟩ 100
        (.doErr "x") "us").state = ⟨[("US", ["1.2.3.0/24"])], 0, 3600⟩ ∧
    (GetIPListForCountry ⟨[("US", ["1.2.3.0/24"])], 0, 3600⟩ 100
        (.doErr "x") "us").value = .ok ["1.2.3.0/24"] ∧
    downloadAndProcessData ⟨[("US", ["1.2.3.0/24"])], 0, 3600⟩ 100 (.doErr "x")
      = ⟨⟨[("US", ["1.2.3.0/24"])], 0, 3600⟩, .ok (), 0⟩ := by
  have h := fresh_lookup_no_network ⟨[("US", ["1.2.3.0/24"])], 0, 3600⟩ 100
    (.doErr "x") "us" (by decide)
  exact ⟨by decide, h.1, h.2.1, h.2.2.1 ["1.2.3.0/24"] (by decide), h.2.2.2⟩

/-- Witness for `count_unparsable_nonfatal`: the unparsable-count DE line
is dropped and the next DE line still parses. -/
theorem count_unparsable_nonfatal_witness :
    atoi ((splitPipe "ripencc|DE|ipv4|10.0.0.0|notanint|20220101|allocated").getD 4 "")
      = none ∧
    parseLine "ripencc|DE|ipv4|10.0.0.0|notanint|20220101|allocated" = none ∧
    parseFeedAux [] ["ripencc|DE|ipv4|10.0.0.0|notanint|20220101|allocated",
                     "ripencc|DE|ipv4|10.0.0.0|65536|20220101|allocated"]
      = parseFeedAux [] ["ripencc|DE|ipv4|10.0.0.0|65536|20220101|allocated"] := by
  have h := count_unparsable_nonfatal
    "ripencc|DE|ipv4|10.0.0.0|notanint|20220101|allocated" []
    ["ripencc|DE|ipv4|10.0.0.0|65536|20220101|allocated"] (by decide)
  exact ⟨by decide, h.1, h.2⟩

/-- Witness for `mask_exact_on_power_of_two`: count 256 gives mask 24. -/
theorem mask_exact_on_power_of_two_witness :
    (8 : Nat) ≤ 32 ∧
    parseLine "ripencc|US|ipv4|192.168.0.0|256|20220101|allocated"
      = some ⟨"US", "192.168.0.0", 256, 24⟩ ∧
    (⟨"US", "192.168.0.0", 256, 24⟩ : IPData).Count = (2 : Int) ^ 8 ∧
    (⟨"US", "192.168.0.0", 256, 24⟩ : IPData).CIDRMask = 32 - (8 : Int) :=
  ⟨by decide, by decide, by decide,
   mask_exact_on_power_of_two 8 (by decide)
     "ripencc|US|ipv4|192.168.0.0|256|20220101|allocated"
     ⟨"US", "192.168.0.0", 256, 24⟩ (by decide) (by decide)⟩

/-- Witness for `registry_family_filter`: an APNIC line with otherwise
valid fields contributes nothing. -/
theorem registry_family_filter_witness :
    (hashStart "apnic|CN|ipv4|172.16.0.0|4096|20220101|allocated" = true ∨
     blankLine "apnic|CN|ipv4|172.16.0.0|4096|20220101|allocated" = true ∨
     (splitPipe "apnic|CN|ipv4|172.16.0.0|4096|20220101|allocated").length < 6 ∨
     (splitPipe "apnic|CN|ipv4|172.16.0.0|4096|20220101|allocated").getD 0 ""
        ≠ "ripencc" ∨
     (splitPipe "apnic|CN|ipv4|172.16.0.0|4096|20220101|allocated").getD 2 ""
        ≠ "ipv4") ∧
    parseLine "apnic|CN|ipv4|172.16.0.0|4096|20220101|allocated" = none := by
  have hd : hashStart "apnic|CN|ipv4|172.16.0.0|4096|20220101|allocated" = true ∨
      blankLine "apnic|CN|ipv4|172.16.0.0|4096|20220101|allocated" = true ∨
      (splitPipe "apnic|CN|ipv4|172.16.0.0|4096|20220101|allocated").length < 6 ∨
      (splitPipe "apnic|CN|ipv4|172.16.0.0|4096|20220101|allocated").getD 0 ""
        ≠ "ripencc" ∨
      (splitPipe "apnic|CN|ipv4|172.16.0.0|4096|20220101|allocated").getD 2 ""
        ≠ "ipv4" :=
    Or.inr (Or.inr (Or.inr (Or.inl (by decide))))
  exact ⟨hd, registry_family_filter _ hd⟩

/-- Witness for `unknown_country_not_error`: a fresh-cache miss and a
stale-cache refresh whose feed has no line for the requested country. -/
theorem unknown_country_not_error_witness :
    ((100 : Int) - 0 < 3600) ∧
    findD ([("US", ["1.2.3.0/24"])] : List (String × List String))
        (toUpperAscii "xx") = none ∧
    GetIPListForCountry ⟨[("US", ["1.2.3.0/24"])], 0, 3600⟩ 100
        (.doErr "x") "xx"
      = ⟨.ok [], ⟨[("US", ["1.2.3.0/24"])], 0, 3600⟩, 0⟩ ∧
    (¬ ((7200 : Int) - 0 < 3600)) ∧
    recordsFor ["ripencc|US|ipv4|192.168.0.0|256|20220101|allocated"]
        (toUpperAscii "de") = [] ∧
    GetIPListForCountry ⟨[], 0, 3600⟩ 7200
        (.resp 200 ["ripencc|US|ipv4|192.168.0.0|256|20220101|allocated"] none)
        "de"
      = ⟨.ok [],
         ⟨buildCache (parseFeed
            ["ripencc|US|ipv4|192.168.0.0|256|20220101|allocated"]),
          7200, 3600⟩, 1⟩ := by
  refine ⟨by decide, by decide, ?_, by decide, by decide, ?_⟩
  · exact (unknown_country_not_error ⟨[("US", ["1.2.3.0/24"])], 0, 3600⟩ 100
      (.doErr "x") [] "xx").1 (by decide) (by decide)
  · exact (unknown_country_not_error ⟨[], 0, 3600⟩ 7200 (.doErr "unused")
      ["ripencc|US|ipv4|192.168.0.0|256|20220101|allocated"] "de").2
      (by decide) (by decide)

/-- Witness for `refresh_replaces_cache_wholesale`: a refresh over a cache
holding FR data, from a feed holding only a US line — the new cache has the
US entry and the FR entry is gone. -/
theorem refresh_replaces_cache_wholesale_witness :
    (¬ ((7200 : Int) - 0 < 3600)) ∧
    downloadAndProcessData ⟨[("FR", ["1.0.0.0/8"])], 0, 3600⟩ 7200
        (.resp 200 ["ripencc|US|ipv4|192.168.0.0|256|20220101|allocated"] none)
      = ⟨⟨buildCache (parseFeed
            ["ripencc|US|ipv4|192.168.0.0|256|20220101|allocated"]),
          7200, 3600⟩, .ok (), 1⟩ ∧
    findD (buildCache (parseFeed
        ["ripencc|US|ipv4|192.168.0.0|256|20220101|allocated"])) "US"
      = (if (recordsFor ["ripencc|US|ipv4|192.168.0.0|256|20220101|allocated"]
              "US").isEmpty then none
         else some ((recordsFor
              ["ripencc|US|ipv4|192.168.0.0|256|20220101|allocated"]
              "US").map cidrOf)) ∧
    findD (buildCache (parseFeed
        ["ripencc|US|ipv4|192.168.0.0|256|20220101|allocated"])) "FR"
      = (if (recordsFor ["ripencc|US|ipv4|192.168.0.0|256|20220101|allocated"]
              "FR").isEmpty then none
         else some ((recordsFor
              ["ripencc|US|ipv4|192.168.0.0|256|20220101|allocated"]
              "FR").map cidrOf)) := by
  have h := refresh_replaces_cache_wholesale ⟨[("FR", ["1.0.0.0/8"])], 0, 3600⟩
    7200 ["ripencc|US|ipv4|192.168.0.0|256|20220101|allocated"] (by decide)
  exact ⟨by decide, h.1, h.2 "US", h.2 "FR"⟩

/-- Witness for `cacheTime_strictly_increases`: a successful refresh stamps
7200 over the stale timestamp 0. -/
theorem cacheTime_strictly_increases_witness :
    (0 : Int) < 3600 ∧ (¬ ((7200 : Int) - 0 < 3600)) ∧
    (downloadAndProcessData ⟨[], 0, 3600⟩ 7200
        (.resp 200 [] none)).state.cacheTime = 7200 ∧
    (0 : Int) < 7200 := by
  have h := (cacheTime_strictly_increases ⟨[], 0, 3600⟩ 7200
    (.resp 200 [] none) (by decide) (by decide)).1 (by rfl)
  exact ⟨by decide, by decide, h.1, h.2⟩

/-- Witness for `non_200_exact_check`: the success status 201 is rejected
and the body is irrelevant. -/
theorem non_200_exact_check_witness :
    (¬ ((7200 : Int) - 0 < 3600)) ∧ ((201 : Int) ≠ 200) ∧
    downloadAndProcessData ⟨[("US", ["1.1.1.0/24"])], 0, 3600⟩ 7200
        (.resp 201 ["ripencc|US|ipv4|1.2.3.0|256|20220101|allocated"] none)
      = ⟨⟨[("US", ["1.1.1.0/24"])], 0, 3600⟩,
         .error "received non-200 response: 201", 1⟩ :=
  ⟨by decide, by decide,
   non_200_exact_check ⟨[("US", ["1.1.1.0/24"])], 0, 3600⟩ 7200 201
     ["ripencc|US|ipv4|1.2.3.0|256|20220101|allocated"] none
     (by decide) (by decide)⟩
